import Mathlib

/-!
# Verification of the round-based orchestration engine (digpolicygold)

Shallow embedding of the data model and the pure/step logic of
`src/models.py` and `src/orchestrator.py`:

* `PolicyItem`, `WorkerResult` — the data model of `src/models.py`;
* `deduplicate` — `Orchestrator.deduplicate` (merge-by-key deduplication);
* `runSearchLoop` — the control skeleton of `Orchestrator._run_web_searches`
  (budget check, per-task error isolation, pacing sleep);
* `reviewRound` / `aiCall` — the error-path structure of
  `Orchestrator._ai_call` and `Orchestrator._review_round`;
* `filterStaleTasks`, `runPlanGate`, `applyScores` — the retry filter,
  early-exit planning gate and score write-back of `Orchestrator.run`
  and `Orchestrator._score_policies`.

Python `dict`s coming back from the oracle are modelled as structures of
`Option`-valued fields (`none` = key absent), `dict.get(k, d)` as
`Option.getD`, raised exceptions as `Except.error`, and the wall clock of
the time-budget logic as an explicit elapsed-seconds counter.
-/

namespace DigPolicy

/-- Model of `PolicyItem` from `src/models.py`: one retrieved policy record.
Python `int` scores are modelled as `Int`; every `str` field defaults
to `""` exactly as in the dataclass. -/
structure PolicyItem where
  title : String := ""
  url : String := ""
  source : String := ""
  date : String := ""
  summary : String := ""
  support : String := ""
  pdf_url : String := ""
  industry : String := ""
  full_text : String := ""
  layer : String := ""
  relevance : Int := 0
  score_amount : Int := 0
  score_exclusivity : Int := 0
  score_feasibility : Int := 0
  score_urgency : Int := 0
  score_sustainability : Int := 0
  score_reason : String := ""
  validity : String := ""
  application_deadline : String := ""
  amount : String := ""
  amount_level : String := ""
  deriving Repr, DecidableEq

/-- Model of `WorkerResult` from `src/models.py` (the fields the orchestrator logic
reads and writes; `duration` is modelled in whole seconds). -/
structure WorkerResult where
  query : String := ""
  policies : List PolicyItem := []
  sources : List String := []
  worker : String := ""
  duration : Nat := 0
  token_usage : List (String × Nat) := []
  error : Option String := none
  raw_answer : String := ""
  deriving Repr, DecidableEq

/-- Model of `WorkerResult.success` from `src/models.py`:
`self.error is None and len(self.policies) > 0`. -/
def WorkerResult.success (r : WorkerResult) : Bool :=
  r.error.isNone && decide (0 < r.policies.length)

/-- Python `str.strip()`: drop leading and trailing whitespace. -/
def pyStrip (s : String) : String :=
  String.mk (((s.toList.dropWhile Char.isWhitespace).reverse.dropWhile
    Char.isWhitespace).reverse)

/-- Python `str.rstrip(c)` for a single character: drop trailing copies of `c`. -/
def pyRstrip (c : Char) (s : String) : String :=
  String.mk ((s.toList.reverse.dropWhile (· == c)).reverse)

/-- The identity key built in `Orchestrator.deduplicate`:
`f"{p.title.strip()}||{p.url.strip().rstrip('/')}"`. -/
def itemKey (p : PolicyItem) : String :=
  pyStrip p.title ++ "||" ++ pyRstrip '/' (pyStrip p.url)

/-- Model of `if len(p.summary or "") > len(existing.summary or ""): seen[key] = p`
— the record that survives the summary-length contest. -/
def mergeBase (existing p : PolicyItem) : PolicyItem :=
  if existing.summary.length < p.summary.length then p else existing

/-- Model of `if p.pdf_url and not existing.pdf_url: seen[key].pdf_url = p.pdf_url`. -/
def mergePdf (existing p r : PolicyItem) : PolicyItem :=
  if p.pdf_url ≠ "" ∧ existing.pdf_url = "" then { r with pdf_url := p.pdf_url } else r

/-- Model of `if p.support and not existing.support: seen[key].support = p.support`. -/
def mergeSupport (existing p r : PolicyItem) : PolicyItem :=
  if p.support ≠ "" ∧ existing.support = "" then { r with support := p.support } else r

/-- Model of `if p.full_text and not existing.full_text: seen[key].full_text = p.full_text`. -/
def mergeFullText (existing p r : PolicyItem) : PolicyItem :=
  if p.full_text ≠ "" ∧ existing.full_text = "" then { r with full_text := p.full_text } else r

/-- The whole `key in seen` branch of `Orchestrator.deduplicate`: the
stored record after merging incoming `p` into stored `existing`. -/
def mergeInto (existing p : PolicyItem) : PolicyItem :=
  mergeFullText existing p (mergeSupport existing p (mergePdf existing p (mergeBase existing p)))

/-- One iteration of the `for p in policies` loop of
`Orchestrator.deduplicate`; `seen` is the insertion-ordered dict,
modelled as an association list in insertion order (Python dicts
preserve insertion order). -/
def dedupStep (seen : List (String × PolicyItem)) (p : PolicyItem) :
    List (String × PolicyItem) :=
  let k := itemKey p
  if k ∈ seen.map Prod.fst then
    seen.map (fun kv => if kv.1 = k then (kv.1, mergeInto kv.2 p) else kv)
  else
    seen ++ [(k, p)]

/-- Model of `Orchestrator.deduplicate` from `src/orchestrator.py`: fold the input
through `dedupStep` and return `list(seen.values())`. -/
def deduplicate (policies : List PolicyItem) : List PolicyItem :=
  (policies.foldl dedupStep []).map Prod.snd

/-- Append a key unless it is already present — how an insertion-ordered
dict accumulates its key list. Used to state the first-seen-order shape
of `deduplicate`'s output. -/
def insertIfNew (acc : List String) (k : String) : List String :=
  if k ∈ acc then acc else acc ++ [k]

/-- The keys of a list in first-seen order, each kept once. -/
def firstSeen (ks : List String) : List String :=
  ks.foldl insertIfNew []

/-- One task dict produced by the Planner / Reviewer oracles; the code
reads every field with `t.get(k, default)`, so absent keys behave as the
defaults below. -/
structure RetrievalTask where
  search_term : String := ""
  layer : String := ""
  dimension : String := ""
  priority : String := ""
  reason : String := ""
  deriving Repr, DecidableEq

/-- The retry filter in `Orchestrator.run`:
`new_tasks = [t for t in retry_tasks if t.get("search_term", "") not in search_history]`. -/
def filterStaleTasks (retryTasks : List RetrievalTask) (searchHistory : List String) :
    List RetrievalTask :=
  retryTasks.filter (fun t => !(searchHistory.contains t.search_term))

deriving instance DecidableEq for Except

/-- What `worker.search(term)` in `Orchestrator._run_web_searches` does
for one task: how long the call takes (seconds on the wall clock) and
whether it returns a `WorkerResult` or raises an exception (`Except.error`
carries `str(e)`). -/
structure ExecTask where
  task : RetrievalTask := {}
  duration : Nat := 0
  outcome : Except String WorkerResult := Except.ok {}
  deriving Repr, DecidableEq

/-- The result entry `_run_web_searches` appends for one attempted task:
on success the worker's result with `result.worker = f"web_search({layer})"`;
on exception `WorkerResult(query=term, worker=..., error=str(e))`. -/
def taskEntry (t : ExecTask) : WorkerResult :=
  match t.outcome with
  | Except.ok r => { r with worker := "web_search(" ++ t.task.layer ++ ")" }
  | Except.error e =>
      { query := t.task.search_term
        worker := "web_search(" ++ t.task.layer ++ ")"
        error := some e }

/-- The `for i, task in enumerate(tasks, 1)` loop of
`Orchestrator._run_web_searches`, with the wall clock made explicit:
`elapsed` is `time.time() - self._start_time` in seconds. Before each
task `self._is_timeout()` (`elapsed >= time_budget`) is checked; on
timeout the loop breaks, skipping the remaining tasks (returned as the
second component). Each attempted task advances the clock by its search
duration, and `time.sleep(request_delay)` runs after every task except
the last (`if i < len(tasks) and self.request_delay > 0`). -/
def runSearchLoop (budget delay : Nat) : Nat → List ExecTask → List WorkerResult × Nat
  | _, [] => ([], 0)
  | elapsed, task :: rest =>
      if budget ≤ elapsed then ([], (task :: rest).length)
      else
        let afterSearch := elapsed + task.duration
        let afterSleep :=
          if rest ≠ [] ∧ 0 < delay then afterSearch + delay else afterSearch
        let tail := runSearchLoop budget delay afterSleep rest
        (taskEntry task :: tail.1, tail.2)

/-- Model of `Orchestrator._run_web_searches` on a fresh clock: results collected
plus the number of tasks skipped on timeout. -/
def runWebSearches (budget delay : Nat) (tasks : List ExecTask) :
    List WorkerResult × Nat :=
  runSearchLoop budget delay 0 tasks

/-- The JSON dict the Reviewer oracle returns, as read by
`Orchestrator._review_round` / `Orchestrator.run`; `none` models an
absent key, so `review.get("need_more_search", False)` is
`need_more_search.getD false`.  `err`/`raw` are the `"error"`/`"raw"`
keys of the fallback dict `_ai_call` builds for non-JSON output. -/
structure ReviewJson where
  overall_quality : Option String := none
  need_more_search : Option Bool := none
  retry_tasks : Option (List RetrievalTask) := none
  err : Option String := none
  raw : Option String := none
  deriving Repr, DecidableEq

/-- How one Reviewer oracle interaction can go, following the branches of
`Orchestrator._ai_call`: the chat call raises; the returned text parses
as JSON; a JSON-looking block is extracted and parses; the extracted
block fails to parse (second `json.loads` raises); or no JSON-looking
block exists at all. -/
inductive OracleBehavior where
  | raises (msg : String)
  | returnsJson (d : ReviewJson)
  | returnsExtractable (d : ReviewJson)
  | returnsExtractFails (msg : String)
  | returnsNoJson (raw : String)
  deriving Repr, DecidableEq

/-- The fallback dict `_ai_call` returns when the oracle text holds no
JSON block: `{"error": "AI 返回了非 JSON 内容", "raw": text}` — it has no
`need_more_search` or `retry_tasks` key. -/
def aiFallbackDict (raw : String) : ReviewJson :=
  { err := some "AI 返回了非 JSON 内容", raw := some raw }

/-- Model of `Orchestrator._ai_call`: a raised exception propagates
(`Except.error`); parsed or extracted JSON is returned; a failed
extraction re-raises; text with no JSON block yields the fallback dict. -/
def aiCall : OracleBehavior → Except String ReviewJson
  | OracleBehavior.raises m => Except.error m
  | OracleBehavior.returnsJson d => Except.ok d
  | OracleBehavior.returnsExtractable d => Except.ok d
  | OracleBehavior.returnsExtractFails m => Except.error m
  | OracleBehavior.returnsNoJson raw => Except.ok (aiFallbackDict raw)

/-- Model of `Orchestrator._review_round` around its oracle call: the call
`review = self._ai_call(system, user_content)` is not wrapped in any
`try`/`except`, so the review step returns whatever `_ai_call` returns
and propagates whatever it raises. -/
def reviewRound (oracle : OracleBehavior) : Except String ReviewJson :=
  aiCall oracle

/-- Model of `review.get("need_more_search", False)` as read by `Orchestrator.run`. -/
def needMoreSearch (r : ReviewJson) : Bool :=
  r.need_more_search.getD false

/-- The `compliance_veto` dict of the Planner output; `none` models both
an absent key and the (falsy) empty dict. -/
structure VetoDict where
  passed : Option Bool := none
  risk_level : Option String := none
  deriving Repr, DecidableEq

/-- The Planner output as read by `Orchestrator.run`. -/
structure PlanDict where
  tasks : List RetrievalTask := []
  compliance_veto : Option VetoDict := none
  deriving Repr, DecidableEq

/-- Model of `if veto and not veto.get("passed", True) and veto.get("risk_level") == "blocked"`. -/
def vetoBlocked (plan : PlanDict) : Bool :=
  match plan.compliance_veto with
  | none => false
  | some v => !(v.passed.getD true) && (v.risk_level == some "blocked")

/-- The task list after the compliance-veto branch of `Orchestrator.run`:
under a blocked veto only `dimension == "合规"` tasks are kept. -/
def effectiveTasks (plan : PlanDict) : List RetrievalTask :=
  if vetoBlocked plan then plan.tasks.filter (fun t => t.dimension == "合规")
  else plan.tasks

/-- The early-exit section of `Orchestrator.run` between planning and the
search loop: `Sum.inl r` models `return r` before any search round,
`Sum.inr tasks` models entering the round loop with that task batch. -/
def runPlanGate (companyName : String) (plan : PlanDict) :
    Sum WorkerResult (List RetrievalTask) :=
  let tasks := effectiveTasks plan
  if vetoBlocked plan ∧ tasks = [] then
    Sum.inl
      { query := companyName
        error := some "企业存在严重失信记录，暂无法匹配政策。建议先进行信用修复。"
        worker := "orchestrator" }
  else if tasks = [] then
    Sum.inl { query := companyName, error := some "AI 未生成搜索任务" }
  else
    Sum.inr tasks

/-- One entry of `result["scored_policies"]` as read by
`Orchestrator._score_policies`; `none` models an absent key. -/
structure ScoreEntry where
  index : Option Int := none
  relevance : Option Int := none
  score_amount : Option Int := none
  score_exclusivity : Option Int := none
  score_feasibility : Option Int := none
  score_urgency : Option Int := none
  score_sustainability : Option Int := none
  reason : Option String := none
  validity : Option String := none
  amount : Option String := none
  amount_level : Option String := none
  deriving Repr, DecidableEq

/-- The field writes `policies[idx].relevance = item.get("relevance", 0)`
… `policies[idx].amount_level = item.get("amount_level", "")` performed
for an in-bounds score entry. -/
def applyEntry (p : PolicyItem) (item : ScoreEntry) : PolicyItem :=
  { p with
    relevance := item.relevance.getD 0
    score_amount := item.score_amount.getD 0
    score_exclusivity := item.score_exclusivity.getD 0
    score_feasibility := item.score_feasibility.getD 0
    score_urgency := item.score_urgency.getD 0
    score_sustainability := item.score_sustainability.getD 0
    score_reason := item.reason.getD ""
    validity := item.validity.getD ""
    amount := item.amount.getD ""
    amount_level := item.amount_level.getD "" }

/-- One iteration of `for item in scored` in `Orchestrator._score_policies`:
`idx = item.get("index", 0) - 1; if 0 <= idx < len(policies): <writes>`.
The list access happens only under the bound check, witnessed here by the
dependent index proof. -/
def applyScore (policies : List PolicyItem) (item : ScoreEntry) : List PolicyItem :=
  let idx : Int := item.index.getD 0 - 1
  if h : 0 ≤ idx ∧ idx.toNat < policies.length then
    policies.set idx.toNat (applyEntry (policies.get ⟨idx.toNat, h.2⟩) item)
  else policies

/-- The whole `for item in scored` loop of `Orchestrator._score_policies`. -/
def applyScores (policies : List PolicyItem) (scored : List ScoreEntry) : List PolicyItem :=
  scored.foldl applyScore policies


/-! ## Records used as concrete inputs in counterexamples and witnesses -/

/-- A record with a populated `pdf_url` and a short summary. -/
def dupA : PolicyItem :=
  { title := "policyA", url := "http://gov.cn/p1", summary := "s",
    pdf_url := "http://gov.cn/p1.pdf" }

/-- A record with the same identity key as `dupA`, a strictly longer
summary, and no `pdf_url`. -/
def dupB : PolicyItem :=
  { title := "policyA", url := "http://gov.cn/p1/", summary := "ss" }

/-- A stored record with empty `pdf_url`/`support`/`full_text`. -/
def mergeW1 : PolicyItem :=
  { title := "policyB", url := "http://gov.cn/p2", summary := "sum" }

/-- An incoming record with the same key as `mergeW1`, a strictly longer
summary, and all three backfillable fields populated. -/
def mergeW2 : PolicyItem :=
  { title := "policyB", url := "http://gov.cn/p2/", summary := "longer sum",
    pdf_url := "http://gov.cn/p2.pdf", support := "50w", full_text := "body" }

/-- The budget-scenario batch: 5 tasks, each search taking 1 second. -/
def budgetScenarioTasks : List ExecTask :=
  List.replicate 5 { task := { search_term := "q" }, duration := 1 }

/-- Replace a task's search outcome by a successful one, keeping its
duration: used to state that failures do not change which tasks of a
batch get executed. -/
def forceOk (t : ExecTask) : ExecTask :=
  { t with outcome := Except.ok {} }

/-! ## Deduplication: key shape, idempotence, merge behaviour -/

theorem dedupStep_fst (seen : List (String × PolicyItem)) (p : PolicyItem) :
    (dedupStep seen p).map Prod.fst = insertIfNew (seen.map Prod.fst) (itemKey p) := by
  unfold dedupStep insertIfNew
  by_cases h : itemKey p ∈ seen.map Prod.fst
  · simp only [h, if_true, List.map_map]
    apply List.map_congr_left
    intro kv _
    by_cases hk : kv.1 = itemKey p <;> simp [hk]
  · simp [h]

theorem itemKey_mergeInto (existing p : PolicyItem) :
    itemKey (mergeInto existing p) = itemKey existing ∨
      itemKey (mergeInto existing p) = itemKey p := by
  unfold mergeInto mergeFullText mergeSupport mergePdf mergeBase
  split_ifs <;> first | exact Or.inl rfl | exact Or.inr rfl

theorem dedupStep_keyInv (seen : List (String × PolicyItem)) (p : PolicyItem)
    (h : ∀ kv ∈ seen, itemKey kv.2 = kv.1) :
    ∀ kv ∈ dedupStep seen p, itemKey kv.2 = kv.1 := by
  unfold dedupStep
  by_cases hk : itemKey p ∈ seen.map Prod.fst
  · simp only [hk, if_true]
    intro kv hkv
    rw [List.mem_map] at hkv
    obtain ⟨q, hq, hkv⟩ := hkv
    by_cases he : q.1 = itemKey p
    · subst hkv
      simp only [he, if_true]
      have hq1 : itemKey q.2 = q.1 := h q hq
      rcases itemKey_mergeInto q.2 p with h1 | h1 <;> simp [h1, hq1, he]
    · subst hkv
      simp only [he, if_false]
      exact h q hq
  · simp only [hk, if_false]
    intro kv hkv
    rw [List.mem_append] at hkv
    rcases hkv with hkv | hkv
    · exact h kv hkv
    · simp only [List.mem_singleton] at hkv
      subst hkv
      rfl

theorem foldl_dedupStep_keyInv (ps : List PolicyItem) :
    ∀ seen : List (String × PolicyItem), (∀ kv ∈ seen, itemKey kv.2 = kv.1) →
      ∀ kv ∈ ps.foldl dedupStep seen, itemKey kv.2 = kv.1 := by
  induction ps with
  | nil => intro seen h; simpa using h
  | cons p rest ih =>
      intro seen h
      rw [List.foldl_cons]
      exact ih _ (dedupStep_keyInv seen p h)

theorem foldl_dedupStep_fst (ps : List PolicyItem) :
    ∀ seen : List (String × PolicyItem),
      (ps.foldl dedupStep seen).map Prod.fst =
        (ps.map itemKey).foldl insertIfNew (seen.map Prod.fst) := by
  induction ps with
  | nil => intro seen; rfl
  | cons p rest ih =>
      intro seen
      rw [List.map_cons, List.foldl_cons, List.foldl_cons, ih, dedupStep_fst]

theorem insertIfNew_nodup (acc : List String) (k : String) (h : acc.Nodup) :
    (insertIfNew acc k).Nodup := by
  unfold insertIfNew
  split_ifs with hk
  · exact h
  · simp [List.nodup_append, h, hk]

theorem foldl_insertIfNew_nodup (ks : List String) :
    ∀ acc : List String, acc.Nodup → (ks.foldl insertIfNew acc).Nodup := by
  induction ks with
  | nil => intro acc h; exact h
  | cons k rest ih =>
      intro acc h
      rw [List.foldl_cons]
      exact ih _ (insertIfNew_nodup acc k h)

theorem deduplicate_map_key (ps : List PolicyItem) :
    (deduplicate ps).map itemKey = firstSeen (ps.map itemKey) := by
  unfold deduplicate firstSeen
  have h1 : (ps.foldl dedupStep []).map (fun kv => itemKey kv.2) =
      (ps.foldl dedupStep []).map Prod.fst :=
    List.map_congr_left (fun kv hkv => foldl_dedupStep_keyInv ps [] (by simp) kv hkv)
  have h2 := foldl_dedupStep_fst ps []
  rw [List.map_map]
  calc (ps.foldl dedupStep []).map (itemKey ∘ Prod.snd)
      = (ps.foldl dedupStep []).map Prod.fst := h1
    _ = (ps.map itemKey).foldl insertIfNew [] := by simpa using h2

theorem deduplicate_keys_nodup (ps : List PolicyItem) :
    ((deduplicate ps).map itemKey).Nodup := by
  rw [deduplicate_map_key]
  exact foldl_insertIfNew_nodup _ [] List.nodup_nil

theorem foldl_dedupStep_fresh (qs : List PolicyItem) :
    ∀ seen : List (String × PolicyItem),
      (seen.map Prod.fst ++ qs.map itemKey).Nodup →
      qs.foldl dedupStep seen = seen ++ qs.map (fun q => (itemKey q, q)) := by
  induction qs with
  | nil => intro seen _; simp
  | cons q rest ih =>
      intro seen h
      have hparts := List.nodup_append.mp h
      have hnotin : itemKey q ∉ seen.map Prod.fst := by
        intro hin
        exact hparts.2.2 hin (List.mem_cons_self _ _)
      rw [List.foldl_cons]
      have hstep : dedupStep seen q = seen ++ [(itemKey q, q)] := by
        unfold dedupStep
        simp [hnotin]
      rw [hstep, ih]
      · simp
      · rw [List.map_cons, List.append_cons] at h
        simpa using h

theorem deduplicate_of_nodup_keys (l : List PolicyItem)
    (h : (l.map itemKey).Nodup) : deduplicate l = l := by
  unfold deduplicate
  rw [foldl_dedupStep_fresh l [] (by simpa using h)]
  rw [List.nil_append, List.map_map]
  have hid : (Prod.snd ∘ fun q : PolicyItem => (itemKey q, q)) = id := rfl
  rw [hid, List.map_id]

/-- C5: applying `Orchestrator.deduplicate` to an already-deduplicated
list returns the very same record list, so `deduplicate` is idempotent
(`dedup(dedup(X)) = dedup(X)` for every input list `X`). -/
theorem C5_deduplicate_idempotent (ps : List PolicyItem) :
    deduplicate (deduplicate ps) = deduplicate ps :=
  deduplicate_of_nodup_keys _ (deduplicate_keys_nodup ps)

/-- C6: the output of `Orchestrator.deduplicate` has pairwise-distinct
identity keys (normalized title paired with trimmed, slash-stripped url),
and those keys appear in first-seen order of the input's keys. -/
theorem C6_deduplicate_output_shape (ps : List PolicyItem) :
    ((deduplicate ps).map itemKey).Nodup ∧
      (deduplicate ps).map itemKey = firstSeen (ps.map itemKey) :=
  ⟨deduplicate_keys_nodup ps, deduplicate_map_key ps⟩

/-- C1 counterexample: `dupA` and `dupB` share an identity key; `dupA`
has a populated `pdf_url` while `dupB` has a strictly longer summary and
an empty `pdf_url`. `deduplicate [dupA, dupB]` returns `dupB` unchanged:
the populated `pdf_url` of `dupA` is lost, so the merged record does
have an emptier non-empty field than one of its inputs. -/
theorem C1_counterexample :
    itemKey dupA = itemKey dupB ∧
      dupA.pdf_url = "http://gov.cn/p1.pdf" ∧
      deduplicate [dupA, dupB] = [dupB] ∧
      dupB.pdf_url = "" := by
  refine ⟨by decide, rfl, by decide, rfl⟩

theorem mergeInto_summary (existing p : PolicyItem) :
    (mergeInto existing p).summary = (mergeBase existing p).summary := by
  unfold mergeInto mergeFullText mergeSupport mergePdf
  split_ifs <;> rfl

theorem mergeInto_pdf (existing p : PolicyItem) (h1 : existing.pdf_url = "")
    (h2 : p.pdf_url ≠ "") : (mergeInto existing p).pdf_url = p.pdf_url := by
  unfold mergeInto mergeFullText mergeSupport mergePdf
  split_ifs <;> simp_all

theorem mergeInto_support (existing p : PolicyItem) (h1 : existing.support = "")
    (h2 : p.support ≠ "") : (mergeInto existing p).support = p.support := by
  unfold mergeInto mergeFullText mergeSupport mergePdf mergeBase
  split_ifs <;> simp_all

theorem mergeInto_full_text (existing p : PolicyItem) (h1 : existing.full_text = "")
    (h2 : p.full_text ≠ "") : (mergeInto existing p).full_text = p.full_text := by
  unfold mergeInto mergeFullText
  split_ifs <;> simp_all

/-- C1 amended: for two records sharing an identity key, `deduplicate`
merges them with `mergeInto`; the merged summary is the longer of the two
(replaced only if strictly longer), and an empty `pdf_url`/`support`/
`full_text` on the stored record is backfilled from a populated incoming
one — but because a strictly longer incoming summary replaces the whole
stored record, a populated field of the losing record can be dropped
(shown by the counterexample), so monotone filling holds only in the
backfill direction. -/
theorem C1_merge_amended (existing p : PolicyItem)
    (h : itemKey existing = itemKey p) :
    deduplicate [existing, p] = [mergeInto existing p] ∧
      (mergeInto existing p).summary.length =
        max existing.summary.length p.summary.length ∧
      (existing.pdf_url = "" → p.pdf_url ≠ "" →
        (mergeInto existing p).pdf_url = p.pdf_url) ∧
      (existing.support = "" → p.support ≠ "" →
        (mergeInto existing p).support = p.support) ∧
      (existing.full_text = "" → p.full_text ≠ "" →
        (mergeInto existing p).full_text = p.full_text) := by
  refine ⟨?_, ?_, mergeInto_pdf existing p, mergeInto_support existing p,
    mergeInto_full_text existing p⟩
  · simp [deduplicate, dedupStep, h]
  · rw [mergeInto_summary]
    unfold mergeBase
    split_ifs with hlen <;> omega

theorem C1_merge_amended_witness :
    itemKey mergeW1 = itemKey mergeW2 ∧
      deduplicate [mergeW1, mergeW2] = [mergeInto mergeW1 mergeW2] ∧
      (mergeInto mergeW1 mergeW2).summary.length =
        max mergeW1.summary.length mergeW2.summary.length ∧
      mergeW1.pdf_url = "" ∧ mergeW2.pdf_url ≠ "" ∧
      (mergeInto mergeW1 mergeW2).pdf_url = mergeW2.pdf_url ∧
      mergeW1.support = "" ∧ mergeW2.support ≠ "" ∧
      (mergeInto mergeW1 mergeW2).support = mergeW2.support ∧
      mergeW1.full_text = "" ∧ mergeW2.full_text ≠ "" ∧
      (mergeInto mergeW1 mergeW2).full_text = mergeW2.full_text :=
  ⟨by decide,
    (C1_merge_amended mergeW1 mergeW2 (by decide)).1,
    (C1_merge_amended mergeW1 mergeW2 (by decide)).2.1,
    rfl, by decide,
    (C1_merge_amended mergeW1 mergeW2 (by decide)).2.2.1 rfl (by decide),
    rfl, by decide,
    (C1_merge_amended mergeW1 mergeW2 (by decide)).2.2.2.1 rfl (by decide),
    rfl, by decide,
    (C1_merge_amended mergeW1 mergeW2 (by decide)).2.2.2.2 rfl (by decide)⟩

/-! ## Review loop: stale-retry filter and oracle failure paths -/

/-- C2: the next-round task batch built in `Orchestrator.run`
(`new_tasks = [t for t in retry_tasks if t.get("search_term", "") not in
search_history]`) never contains a task whose exact search phrase is
already in the accumulated search history. -/
theorem C2_no_stale_retry (retryTasks : List RetrievalTask)
    (history : List String) (t : RetrievalTask)
    (ht : t ∈ filterStaleTasks retryTasks history) :
    t.search_term ∉ history := by
  unfold filterStaleTasks at ht
  rw [List.mem_filter] at ht
  simpa using ht.2

theorem C2_no_stale_retry_witness :
    ({ search_term := "b" } : RetrievalTask) ∈
        filterStaleTasks [{ search_term := "b" }] ["a"] ∧
      ({ search_term := "b" } : RetrievalTask).search_term ∉ ["a"] :=
  ⟨by decide, C2_no_stale_retry [{ search_term := "b" }] ["a"] _ (by decide)⟩

/-- C3 counterexample: when the Reviewer oracle call raises, the review
step (`_review_round`, whose `_ai_call` invocation is not wrapped in any
`try`/`except`) propagates the exception instead of yielding a verdict
with needs-more-search = false: the failure crosses the component
boundary as an exception. -/
theorem C3_counterexample :
    reviewRound (OracleBehavior.raises "connection reset") =
        Except.error "connection reset" ∧
      ∀ d : ReviewJson,
        reviewRound (OracleBehavior.raises "connection reset") ≠ Except.ok d := by
  exact ⟨rfl, fun d h => Except.noConfusion h⟩

/-- C3 amended: only the malformed-output path is fail-safe — if the
oracle returns text with no extractable JSON block, `_ai_call` returns
the fallback dict, which has no `need_more_search` key, so the loop reads
needs-more-search = false and stops; but if the chat call itself raises,
or the extracted JSON block fails to parse, the exception propagates out
of the review step uncaught. -/
theorem C3_review_failure_amended (raw m e : String) :
    (reviewRound (OracleBehavior.returnsNoJson raw)).map needMoreSearch =
        Except.ok false ∧
      reviewRound (OracleBehavior.raises m) = Except.error m ∧
      reviewRound (OracleBehavior.returnsExtractFails e) = Except.error e :=
  ⟨rfl, rfl, rfl⟩

/-! ## Task executor: budget scenario and per-task failure isolation -/

theorem runSearchLoop_take (budget delay : Nat) (tasks : List ExecTask) :
    ∀ elapsed : Nat,
      (runSearchLoop budget delay elapsed tasks).1 =
        (tasks.take (runSearchLoop budget delay elapsed tasks).1.length).map
          taskEntry := by
  induction tasks with
  | nil => intro e; rfl
  | cons task rest ih =>
      intro e
      by_cases hb : budget ≤ e
      · simp [runSearchLoop, hb]
      · simp only [runSearchLoop, hb, if_false]
        rw [List.length_cons, List.take_succ_cons, List.map_cons]
        exact congrArg _ (ih _)

theorem runSearchLoop_length (budget delay : Nat) (tasks : List ExecTask) :
    ∀ elapsed : Nat,
      (runSearchLoop budget delay elapsed tasks).1.length +
        (runSearchLoop budget delay elapsed tasks).2 = tasks.length := by
  induction tasks with
  | nil => intro e; rfl
  | cons task rest ih =>
      intro e
      by_cases hb : budget ≤ e
      · simp [runSearchLoop, hb]
      · simp only [runSearchLoop, hb, if_false, List.length_cons]
        have := ih (if rest ≠ [] ∧ 0 < delay then e + task.duration + delay
          else e + task.duration)
        omega

theorem runSearchLoop_length_forceOk (budget delay : Nat) (tasks : List ExecTask) :
    ∀ elapsed : Nat,
      (runSearchLoop budget delay elapsed (tasks.map forceOk)).1.length =
        (runSearchLoop budget delay elapsed tasks).1.length := by
  induction tasks with
  | nil => intro e; rfl
  | cons task rest ih =>
      intro e
      by_cases hb : budget ≤ e
      · simp [runSearchLoop, hb]
      · have hd : (forceOk task).duration = task.duration := rfl
        have hnil : (rest.map forceOk ≠ []) = (rest ≠ []) := by
          simp [List.map_eq_nil_iff]
        simp only [List.map_cons, runSearchLoop, hb, if_false, List.length_cons,
          hd, hnil]
        rw [ih]

/-- C4: with a 10-second budget, 5-second pacing delay and five tasks
each taking 1 second, `_run_web_searches` processes exactly the first
two tasks (expiry is checked before each task; after tasks 1 and 2 the
pacing sleep moves the clock to 6 s and 12 s, so the check before task 3
fires) and skips the remaining three. -/
theorem C4_budget_scenario :
    (runWebSearches 10 5 budgetScenarioTasks).1 =
        (budgetScenarioTasks.take 2).map taskEntry ∧
      (runWebSearches 10 5 budgetScenarioTasks).1.length = 2 ∧
      (runWebSearches 10 5 budgetScenarioTasks).2 = 3 :=
  ⟨by decide, by decide, by decide⟩

/-- C7: every attempted task of a batch — including one whose search call
raises — contributes exactly its `taskEntry` (which carries `error =
str(e)` for a raising task) to the results, attempted + skipped counts
add up to the batch size, and replacing every outcome by a success does
not change how many tasks get executed: a single task failure neither
aborts the batch nor escapes as an exception. -/
theorem C7_per_task_failure_isolation (budget delay elapsed : Nat)
    (tasks : List ExecTask) :
    (runSearchLoop budget delay elapsed tasks).1 =
        (tasks.take (runSearchLoop budget delay elapsed tasks).1.length).map
          taskEntry ∧
      (runSearchLoop budget delay elapsed tasks).1.length +
          (runSearchLoop budget delay elapsed tasks).2 = tasks.length ∧
      (runSearchLoop budget delay elapsed (tasks.map forceOk)).1.length =
        (runSearchLoop budget delay elapsed tasks).1.length :=
  ⟨runSearchLoop_take budget delay tasks elapsed,
    runSearchLoop_length budget delay tasks elapsed,
    runSearchLoop_length_forceOk budget delay tasks elapsed⟩

/-! ## Planning gate, score write-back, success semantics -/

/-- C8: whenever the effective task list after planning is empty —
including the blocked-compliance-veto case where no compliance-dimension
task survives filtering — `Orchestrator.run` returns an early
`WorkerResult` whose error field is populated (`Sum.inl`, i.e. before
any search round is executed). -/
theorem C8_fatal_empty_plan (name : String) (plan : PlanDict)
    (h : effectiveTasks plan = []) :
    ∃ r : WorkerResult, runPlanGate name plan = Sum.inl r ∧ r.error.isSome := by
  by_cases hb : vetoBlocked plan
  · exact ⟨{ query := name,
             error := some "企业存在严重失信记录，暂无法匹配政策。建议先进行信用修复。",
             worker := "orchestrator" },
      by simp [runPlanGate, h, hb], rfl⟩
  · exact ⟨{ query := name, error := some "AI 未生成搜索任务" },
      by simp [runPlanGate, h, hb], rfl⟩

theorem C8_fatal_empty_plan_witness :
    effectiveTasks {} = [] ∧
      ∃ r : WorkerResult, runPlanGate "acme" {} = Sum.inl r ∧ r.error.isSome :=
  ⟨rfl, C8_fatal_empty_plan "acme" {} rfl⟩

theorem applyScore_length (policies : List PolicyItem) (item : ScoreEntry) :
    (applyScore policies item).length = policies.length := by
  unfold applyScore
  dsimp only
  split <;> simp

theorem applyScore_oob (policies : List PolicyItem) (item : ScoreEntry)
    (h : ¬(1 ≤ item.index.getD 0 ∧ item.index.getD 0 ≤ (policies.length : Int))) :
    applyScore policies item = policies := by
  have hc : ¬(0 ≤ item.index.getD 0 - 1 ∧
      (item.index.getD 0 - 1).toNat < policies.length) := by omega
  unfold applyScore
  dsimp only
  rw [dif_neg hc]

/-- C9: the score write-back loop of `Orchestrator._score_policies`
never changes the number of records, and if every entry returned by the
Ranker has a missing or out-of-range 1-based index then the policy list
is left entirely untouched — out-of-bounds indices are ignored rather
than accessed. -/
theorem C9_score_index_validation (policies : List PolicyItem)
    (scored : List ScoreEntry) :
    (applyScores policies scored).length = policies.length ∧
      ((∀ item ∈ scored,
          ¬(1 ≤ item.index.getD 0 ∧ item.index.getD 0 ≤ (policies.length : Int))) →
        applyScores policies scored = policies) := by
  induction scored generalizing policies with
  | nil => exact ⟨rfl, fun _ => rfl⟩
  | cons item rest ih =>
      constructor
      · calc (applyScores (applyScore policies item) rest).length
            = (applyScore policies item).length := (ih _).1
          _ = policies.length := applyScore_length policies item
      · intro h
        have h0 := h item (List.mem_cons_self _ _)
        unfold applyScores
        rw [List.foldl_cons, applyScore_oob policies item h0]
        exact (ih policies).2 (fun it hit => h it (List.mem_cons_of_mem _ hit))

theorem C9_score_index_validation_witness :
    (∀ item ∈ ([{ index := some 5 }, { index := none }] : List ScoreEntry),
        ¬(1 ≤ item.index.getD 0 ∧
          item.index.getD 0 ≤ ((([{}] : List PolicyItem)).length : Int))) ∧
      applyScores [{}] [{ index := some 5 }, { index := none }] = [{}] :=
  ⟨by decide, (C9_score_index_validation [{}] _).2 (by decide)⟩

/-- C10: `WorkerResult.success` is true exactly when the error field is
`None` and the policy list is non-empty; in particular a run that
finishes without error but with zero policies reports `success = False`. -/
theorem C10_success_semantics (r : WorkerResult) :
    (r.success = true ↔ (r.error = none ∧ r.policies ≠ [])) ∧
      (r.error = none → r.policies = [] → r.success = false) := by
  constructor
  · simp [WorkerResult.success, Option.isNone_iff_eq_none, List.length_pos]
  · intro h1 h2
    simp [WorkerResult.success, h1, h2]

theorem C10_success_semantics_witness :
    ({} : WorkerResult).error = none ∧ ({} : WorkerResult).policies = [] ∧
      ({} : WorkerResult).success = false :=
  ⟨rfl, rfl, (C10_success_semantics {}).2 rfl rfl⟩

end DigPolicy
